import Mathlib

/-!
Verification of the IPO monitor (src/ipo_monitor.py).

The script fetches the day's IPO calendar records, filters the ones whose
offer amount (price times number of shares) reaches a 200,000,000 USD
threshold, and emails a summary.  We embed the three stages shallowly:

* JSON field values (`PyVal`) are absent/null, numbers, or strings.
  Python floats are modelled as exact rationals (`Rat`); every numeric
  value the claims exercise is exactly representable in IEEE doubles, so
  the embedding is faithful on the claimed behaviours.
* A Python string, as this program inspects it, is characterised by its
  split on the hyphen separator: a nonempty list of segments (`Seg`),
  each recording how `float` parses it, together with the result of
  calling `int` on the whole string.  A well-formedness field ties the
  whole-string `int` result to the segments, ruling out states no real
  string produces.
* Fallible Python code (a raised `ValueError`) becomes `Except String`.
-/

/-- How Python's `float` and `int` parse one hyphen-free piece of a string.
`intSeg n`: an integer literal, both parsers give `n`.  `fltSeg q`: parses
as a float (value `q`) but `int` raises, e.g. `"3.5"`.  `badSeg`: nonempty
text on which both raise.  `emptySeg`: the empty piece (both raise). -/
inductive Seg
  | intSeg (n : Int)
  | fltSeg (q : Rat)
  | badSeg
  | emptySeg
  deriving DecidableEq

/-- Result of Python `int` on a lone segment: `some n` iff it parses. -/
def segInt : Seg → Option Int
  | .intSeg n => some n
  | _ => none

/-- Result of Python `float` on one segment; `Except.error` models a
raised `ValueError`. -/
def segFloat : Seg → Except String Rat
  | .intSeg n => .ok (n : Rat)
  | .fltSeg q => .ok q
  | .badSeg => .error "could not convert string to float"
  | .emptySeg => .error "could not convert string to float"

/-- Consistency of the recorded whole-string `int` result with the
segments.  A single-segment string is the segment itself.  A string of
the shape `"-" ++ seg` where `seg` is an integer literal `n` may or may
not be the literal `-n` (e.g. `"-5"` parses, `"-+5"` does not); any other
hyphenated string never parses as an integer. -/
def wholeIntOk : Seg → List Seg → Option Int → Bool
  | h, [], w => w == segInt h
  | .emptySeg, [.intSeg n], w => w == some (-n) || w == none
  | _, _ :: _, w => w == none

/-- A Python string as the program observes it: the nonempty list of
segments produced by splitting on `"-"` (`head :: tail`), plus the result
`wholeInt` of Python `int` applied to the whole string. -/
structure PyStr where
  head : Seg
  tail : List Seg
  wholeInt : Option Int
  ok : wholeIntOk head tail wholeInt = true

/-- The whole string is empty iff its split is one empty segment. -/
def PyStr.isEmptyStr (s : PyStr) : Bool :=
  s.head == .emptySeg && s.tail == []

/-- A JSON field value as Python sees it: absent or null, a number
(int or float, value as an exact rational), or a string. -/
inductive PyVal
  | none
  | num (q : Rat)
  | str (s : PyStr)

/-- Python truthiness of a fetched field value: `None` and absent are
falsy, a number is falsy iff zero, a string is falsy iff empty. -/
def PyVal.isTruthy : PyVal → Bool
  | .none => false
  | .num q => q != 0
  | .str s => !s.isEmptyStr

/-- A raw IPO record from the `ipoCalendar` array.  The four display
fields are opaque and possibly absent; `price` and `numberOfShares` carry
the numeric payloads the filter parses. -/
structure Raw where
  symbol : Option String
  name : Option String
  date : Option String
  exchange : Option String
  price : PyVal
  numberOfShares : PyVal

/-- A qualifying IPO dict as built by `filter_large_ipos`. -/
structure Qual where
  symbol : Option String
  company : Option String
  date : Option String
  price : Rat
  shares : Int
  offer_amount : Rat
  exchange : Option String
  deriving DecidableEq

deriving instance DecidableEq for Except

/-- `OFFER_AMOUNT_THRESHOLD = 200_000_000` (line 14 of the source). -/
def OFFER_AMOUNT_THRESHOLD : Rat := 200000000

/-- Python `int` applied to a float: truncation toward zero. -/
def pytrunc (q : Rat) : Int :=
  q.num.tdiv q.den

/-- Lines 38 and 42-46: `price = ipo.get("price") or 0`, then either the
hyphen-range midpoint `(float(low) + float(high)) / 2` (the two-way
unpacking of `price.split("-")` raises when the split has three or more
pieces), or `float(price) if price else 0`. -/
def normPrice : PyVal → Except String Rat
  | .none => .ok 0
  | .num q => .ok q
  | .str s =>
    if s.isEmptyStr then .ok 0
    else
      match s.tail with
      | [] => segFloat s.head
      | [b] =>
        match segFloat s.head with
        | .error e => .error e
        | .ok lo =>
          match segFloat b with
          | .error e => .error e
          | .ok hi => .ok ((lo + hi) / 2)
      | _ :: _ :: _ => .error "too many values to unpack"

/-- Lines 39 and 48: `shares = ipo.get("numberOfShares") or 0`, then
`shares = int(shares) if shares else 0`. -/
def normShares : PyVal → Except String Int
  | .none => .ok 0
  | .num q => .ok (if q = 0 then 0 else pytrunc q)
  | .str s =>
    if s.isEmptyStr then .ok 0
    else
      match s.wholeInt with
      | some n => .ok n
      | Option.none => .error "invalid literal for int"

/-- Lines 52-60: the dict appended for a qualifying record. -/
def mkQual (ipo : Raw) (price : Rat) (shares : Int) : Qual :=
  { symbol := ipo.symbol
    company := ipo.name
    date := ipo.date
    price := price
    shares := shares
    offer_amount := price * (shares : Rat)
    exchange := ipo.exchange }

/-- One iteration of the loop body (lines 36-60): normalise the two
numeric fields, compute `offer_amount = price * shares`, and emit the
dict iff `offer_amount >= OFFER_AMOUNT_THRESHOLD`.  An error is a raised
`ValueError` escaping the loop. -/
def qualStep (ipo : Raw) : Except String (Option Qual) :=
  match normPrice ipo.price with
  | .error e => .error e
  | .ok price =>
    match normShares ipo.numberOfShares with
    | .error e => .error e
    | .ok shares =>
      if OFFER_AMOUNT_THRESHOLD ≤ price * (shares : Rat) then
        .ok (some (mkQual ipo price shares))
      else
        .ok none

/-- Lines 32-62: `filter_large_ipos`.  Records are processed in order and
appended to the result; the first raised `ValueError` aborts the whole
call (the partially built list is discarded, as the exception propagates
past the `return`). -/
def filter_large_ipos : List Raw → Except String (List Qual)
  | [] => .ok []
  | r :: rest =>
    match qualStep r with
    | .error e => .error e
    | .ok o =>
      match filter_large_ipos rest with
      | .error e => .error e
      | .ok rest2 => .ok (match o with | some q => q :: rest2 | Option.none => rest2)

/-- The record a loop iteration contributes to the output when it does
not raise: `some` qualifying dict or `none`. -/
def emittedOf (r : Raw) : Option Qual :=
  match qualStep r with
  | .ok o => o
  | .error _ => none

/-- An HTTP response as `get_todays_ipos` consumes it: the status code and
the parsed JSON body, of which only the optional `ipoCalendar` array
matters (`data.get("ipoCalendar", [])`). -/
structure IpoResponse where
  status : Nat
  ipoCalendar : Option (List Raw)

/-- Lines 17-29: `get_todays_ipos`, given the response the GET produced.
Returns the record list together with the printed log lines: on status
200 the `ipoCalendar` array (missing key defaulting to `[]`), otherwise
an empty list and an error log naming the status. -/
def get_todays_ipos (resp : IpoResponse) : List Raw × List String :=
  if resp.status = 200 then
    (resp.ipoCalendar.getD [], [])
  else
    ([], ["Error fetching IPO data: " ++ toString resp.status])

/-- Outcome of the `requests.get(url)` call plus `response.json()`: either
an exception raised by the HTTP client or JSON decoder (uncaught in the
source), or a response `get_todays_ipos` goes on to inspect. -/
inductive FetchOutcome
  | raises (msg : String)
  | returns (resp : IpoResponse)

/-- Lines 67-74: the subject and body built by `send_email` before the
SMTP block.  `renderBlock` abstracts the per-record block of lines 77-87
(string formatting of an already-qualified dict; it cannot raise and the
claims do not constrain it). -/
def send_email_message (qs : List Qual) (today : String)
    (renderBlock : Qual → String) : String × String :=
  if qs.isEmpty then
    ("IPO Monitor - No Large IPOs Today (" ++ today ++ ")",
     "No IPOs with offer amount above USD 200 million are scheduled for today.")
  else
    ("IPO Alert - " ++ toString qs.length ++ " Large IPO(s) Today (" ++ today ++ ")",
     "The following IPOs meet the criteria (Offer Amount > USD 200M):\n\n"
       ++ String.join (qs.map renderBlock))

/-- Lines 65-103: `send_email`.  The message is built, then the SMTP
session runs inside `try`/`except`: whether it succeeds (`smtpOk`) or
raises, the function returns normally, logging success or the failure.
Result: subject, body, log lines. -/
def send_email (qs : List Qual) (today : String) (renderBlock : Qual → String)
    (smtpOk : Bool) : String × String × List String :=
  let m := send_email_message qs today renderBlock
  (m.1, m.2,
    if smtpOk then ["Email sent successfully"] else ["Failed to send email"])

/-- Lines 106-122: `main`.  Fetch (an exception from the HTTP client or
JSON decoder propagates), filter (a `ValueError` on a malformed record
propagates), then `send_email` (which swallows its own failures).  The
result collects the log lines of a completed run; an `error` is an
uncaught exception aborting the process. -/
def IpoMonitor.main (f : FetchOutcome) (smtpOk : Bool) (today : String)
    (renderBlock : Qual → String) : Except String (List String) :=
  match f with
  | .raises m => .error m
  | .returns resp =>
    let fetched := get_todays_ipos resp
    match filter_large_ipos fetched.1 with
    | .error e => .error e
    | .ok qs =>
      let sent := send_email qs today renderBlock smtpOk
      .ok (fetched.2 ++ sent.2.2)

/-- Python truthiness is falsity of `PyVal.isTruthy`: `None`/absent,
the number `0`, and the empty string are the falsy field values. -/
def PyVal.isFalsy (v : PyVal) : Bool := !v.isTruthy

/-- A `price` value the normaliser handles without raising: absent/null,
any number, the empty string, a single float-parseable segment, or a
two-way split with both halves float-parseable. -/
def priceWellFormed : PyVal → Bool
  | .none => true
  | .num _ => true
  | .str s =>
    match s.tail with
    | [] => s.head == .emptySeg || (segFloat s.head).isOk
    | [b] => (segFloat s.head).isOk && (segFloat b).isOk
    | _ :: _ :: _ => false

/-- A `numberOfShares` value the normaliser handles without raising:
absent/null, any number, the empty string, or a string `int` parses. -/
def sharesWellFormed : PyVal → Bool
  | .none => true
  | .num _ => true
  | .str s => s.isEmptyStr || s.wholeInt.isSome

/-- A raw `numberOfShares` payload that is non-negative where it parses:
used to delimit when output `shares` are non-negative. -/
def sharesNonNeg : PyVal → Bool
  | .none => true
  | .num q => decide (0 ≤ q)
  | .str s =>
    match s.wholeInt with
    | some n => decide (0 ≤ n)
    | Option.none => true

/-! ### Concrete values used to exercise the claims -/

/-- The string `"15-17"`: two integer-literal segments; `int` on the whole
string raises. -/
def s15_17 : PyStr := ⟨.intSeg 15, [.intSeg 17], none, by decide⟩

/-- The string `"-5"`: splitting on the hyphen gives an empty piece and
`"5"`; `int` on the whole string yields `-5`. -/
def sNeg5 : PyStr := ⟨.emptySeg, [.intSeg 5], some (-5), by decide⟩

/-- A nonempty non-numeric string such as `"abc"`. -/
def sAbc : PyStr := ⟨.badSeg, [], none, by decide⟩

/-- The empty string. -/
def sEmpty : PyStr := ⟨.emptySeg, [], none, by decide⟩

/-- Boundary record: price 200, one million shares, offer amount exactly
200,000,000. -/
def rBoundary : Raw := ⟨none, none, none, none, .num 200, .num 1000000⟩

/-- Offer amount 50,000,000: below the threshold. -/
def r50 : Raw := ⟨none, none, none, none, .num 50, .num 1000000⟩

/-- Offer amount 250,000,000: above the threshold. -/
def r250 : Raw := ⟨none, none, none, none, .num 250, .num 1000000⟩

/-- Offer amount 300,000,000: above the threshold. -/
def r300 : Raw := ⟨none, none, none, none, .num 300, .num 1000000⟩

/-- Negative price and negative share count whose product meets the
threshold. -/
def rNegShares : Raw := ⟨none, none, none, none, .num (-10), .num (-20000000)⟩

/-- A record whose price is the string `"-5"`. -/
def rNegStr : Raw := ⟨none, none, none, none, .str sNeg5, .num 1000000⟩

/-- A record whose price is a non-numeric string. -/
def rBadPrice : Raw := ⟨none, none, none, none, .str sAbc, .num 1⟩

/-- A record with a price range string and display fields present. -/
def rNamed : Raw :=
  ⟨some "ACME", some "Acme Corp", some "2026-01-02", some "NYSE", .num 200, .num 1000000⟩

/-! ### Helper lemmas about the normalisers and the filter loop -/

theorem pytrunc_intCast (n : Int) : pytrunc (n : Rat) = n := by
  simp [pytrunc]

/-- A falsy `price` field normalises to `0`. -/
theorem normPrice_falsy (v : PyVal) (h : v.isFalsy = true) : normPrice v = .ok 0 := by
  cases v with
  | none => rfl
  | num q =>
    simp [PyVal.isFalsy, PyVal.isTruthy] at h
    simp [normPrice, h]
  | str s =>
    simp [PyVal.isFalsy, PyVal.isTruthy] at h
    simp [normPrice, h]

/-- A falsy `numberOfShares` field normalises to `0`. -/
theorem normShares_falsy (v : PyVal) (h : v.isFalsy = true) : normShares v = .ok 0 := by
  cases v with
  | none => rfl
  | num q =>
    simp [PyVal.isFalsy, PyVal.isTruthy] at h
    simp [normShares, h]
  | str s =>
    simp [PyVal.isFalsy, PyVal.isTruthy] at h
    simp [normShares, h]

/-- Inversion for an emitting loop iteration: the record normalised to
some `p` and `s`, the offer amount met the threshold, and the emitted
dict is exactly `mkQual`. -/
theorem qualStep_eq_some_iff (r : Raw) (q : Qual) :
    qualStep r = .ok (some q) ↔
      ∃ p s, normPrice r.price = .ok p ∧ normShares r.numberOfShares = .ok s ∧
        OFFER_AMOUNT_THRESHOLD ≤ p * (s : Rat) ∧ q = mkQual r p s := by
  constructor
  · intro h
    unfold qualStep at h
    cases hp : normPrice r.price with
    | error e => rw [hp] at h; exact absurd h (by simp)
    | ok p =>
      rw [hp] at h
      cases hs : normShares r.numberOfShares with
      | error e => rw [hs] at h; exact absurd h (by simp)
      | ok s =>
        rw [hs] at h
        dsimp only at h
        by_cases hc : OFFER_AMOUNT_THRESHOLD ≤ p * (s : Rat)
        · rw [if_pos hc] at h
          exact ⟨p, s, rfl, rfl, hc, by injection h with h2; exact (Option.some_inj.mp h2).symm⟩
        · rw [if_neg hc] at h
          exact absurd h (by simp)
  · rintro ⟨p, s, hp, hs, hc, rfl⟩
    unfold qualStep
    rw [hp, hs]
    dsimp only
    rw [if_pos hc]

/-- Every dict the output list contains has `offer_amount` at or above
the threshold. -/
theorem filter_ok_amount (ipos : List Raw) (out : List Qual)
    (h : filter_large_ipos ipos = .ok out) :
    ∀ q ∈ out, OFFER_AMOUNT_THRESHOLD ≤ q.offer_amount := by
  induction ipos generalizing out with
  | nil =>
    simp [filter_large_ipos] at h
    subst h
    intro q hq
    exact absurd hq (by simp)
  | cons r rest ih =>
    rw [filter_large_ipos] at h
    cases hqs : qualStep r with
    | error e => rw [hqs] at h; exact absurd h (by simp)
    | ok o =>
      rw [hqs] at h
      cases hrest : filter_large_ipos rest with
      | error e => rw [hrest] at h; exact absurd h (by simp)
      | ok rest2 =>
        rw [hrest] at h
        cases o with
        | none =>
          simp at h
          subst h
          exact ih rest2 hrest
        | some q0 =>
          simp at h
          subst h
          intro q hq
          rcases List.mem_cons.mp hq with hq | hq
          · subst hq
            rcases (qualStep_eq_some_iff r q).mp hqs with ⟨p, s, _, _, hc, rfl⟩
            exact hc
          · exact ih rest2 hrest q hq

/-- A record whose loop iteration emits a dict puts that dict in the
output list. -/
theorem filter_ok_mem (ipos : List Raw) (out : List Qual)
    (h : filter_large_ipos ipos = .ok out) (r : Raw) (hr : r ∈ ipos)
    (q : Qual) (hq : qualStep r = .ok (some q)) : q ∈ out := by
  induction ipos generalizing out with
  | nil => exact absurd hr (by simp)
  | cons r0 rest ih =>
    rw [filter_large_ipos] at h
    cases hqs : qualStep r0 with
    | error e => rw [hqs] at h; exact absurd h (by simp)
    | ok o =>
      rw [hqs] at h
      cases hrest : filter_large_ipos rest with
      | error e => rw [hrest] at h; exact absurd h (by simp)
      | ok rest2 =>
        rw [hrest] at h
        rcases List.mem_cons.mp hr with hr0 | hrrest
        · subst hr0
          rw [hqs] at hq
          injection hq with h2
          subst h2
          simp at h
          subst h
          exact List.mem_cons_self q rest2
        · cases o with
          | none =>
            simp at h
            subst h
            exact ih rest2 hrest hrrest
          | some q0 =>
            simp at h
            subst h
            exact List.mem_cons_of_mem q0 (ih rest2 hrest hrrest)

/-- A successful filter pass returns exactly the in-order emissions of
the loop iterations. -/
theorem filter_ok_eq_filterMap (ipos : List Raw) (out : List Qual)
    (h : filter_large_ipos ipos = .ok out) : out = ipos.filterMap emittedOf := by
  induction ipos generalizing out with
  | nil =>
    simp [filter_large_ipos] at h
    subst h
    rfl
  | cons r rest ih =>
    rw [filter_large_ipos] at h
    cases hqs : qualStep r with
    | error e => rw [hqs] at h; exact absurd h (by simp)
    | ok o =>
      rw [hqs] at h
      cases hrest : filter_large_ipos rest with
      | error e => rw [hrest] at h; exact absurd h (by simp)
      | ok rest2 =>
        rw [hrest] at h
        have hem : emittedOf r = o := by rw [emittedOf, hqs]
        cases o with
        | none =>
          simp at h
          subst h
          rw [List.filterMap_cons, hem]
          exact ih rest2 hrest
        | some q0 =>
          simp at h
          subst h
          rw [List.filterMap_cons, hem]
          rw [ih rest2 hrest]

/-- Processing a concatenation concatenates the outputs when both halves
succeed. -/
theorem filter_large_ipos_append (xs ys : List Raw) (as bs : List Qual)
    (hx : filter_large_ipos xs = .ok as) (hy : filter_large_ipos ys = .ok bs) :
    filter_large_ipos (xs ++ ys) = .ok (as ++ bs) := by
  induction xs generalizing as with
  | nil =>
    simp [filter_large_ipos] at hx
    subst hx
    simpa using hy
  | cons r rest ih =>
    rw [filter_large_ipos] at hx
    rw [List.cons_append, filter_large_ipos]
    cases hqs : qualStep r with
    | error e => rw [hqs] at hx; exact absurd hx (by simp)
    | ok o =>
      rw [hqs] at hx
      cases hrest : filter_large_ipos rest with
      | error e => rw [hrest] at hx; exact absurd hx (by simp)
      | ok rest2 =>
        rw [hrest] at hx
        rw [ih rest2 hrest]
        cases o with
        | none =>
          simp at hx
          subst hx
          rfl
        | some q0 =>
          simp at hx
          subst hx
          rfl

/-- A well-formed `price` payload normalises without raising. -/
theorem normPrice_wf (v : PyVal) (h : priceWellFormed v = true) :
    ∃ p, normPrice v = .ok p := by
  cases v with
  | none => exact ⟨0, rfl⟩
  | num q => exact ⟨q, rfl⟩
  | str s =>
    obtain ⟨hd, tl, w, hok⟩ := s
    by_cases he : PyStr.isEmptyStr ⟨hd, tl, w, hok⟩ = true
    · exact ⟨0, by simp [normPrice, he]⟩
    · simp only [priceWellFormed] at h
      cases tl with
      | nil =>
        rcases Bool.or_eq_true_iff.mp h with h1 | h1
        · exact absurd (by simp [PyStr.isEmptyStr, beq_iff_eq.mp h1]) he
        · cases hsf : segFloat hd with
          | error e => rw [hsf] at h1; exact absurd h1 (by simp [Except.isOk, Except.toBool])
          | ok p => exact ⟨p, by simp [normPrice, he, hsf]⟩
      | cons b tl2 =>
        cases tl2 with
        | nil =>
          rcases Bool.and_eq_true_iff.mp h with ⟨h1, h2⟩
          cases hsf : segFloat hd with
          | error e => rw [hsf] at h1; exact absurd h1 (by simp [Except.isOk, Except.toBool])
          | ok lo =>
            cases hsb : segFloat b with
            | error e => rw [hsb] at h2; exact absurd h2 (by simp [Except.isOk, Except.toBool])
            | ok hi => exact ⟨(lo + hi) / 2, by simp [normPrice, he, hsf, hsb]⟩
        | cons c tl3 => exact absurd h (by simp)

/-- A well-formed `numberOfShares` payload normalises without raising. -/
theorem normShares_wf (v : PyVal) (h : sharesWellFormed v = true) :
    ∃ n, normShares v = .ok n := by
  cases v with
  | none => exact ⟨0, rfl⟩
  | num q => exact ⟨if q = 0 then 0 else pytrunc q, rfl⟩
  | str s =>
    by_cases he : s.isEmptyStr = true
    · exact ⟨0, by simp [normShares, he]⟩
    · simp only [sharesWellFormed, he] at h
      cases hw : s.wholeInt with
      | none => rw [hw] at h; exact absurd h (by simp)
      | some n => exact ⟨n, by simp [normShares, he, hw]⟩

/-- On a list of well-formed records the filter never raises. -/
theorem filter_wf_ok (ipos : List Raw)
    (h : ∀ r ∈ ipos, priceWellFormed r.price = true ∧ sharesWellFormed r.numberOfShares = true) :
    ∃ out, filter_large_ipos ipos = .ok out := by
  induction ipos with
  | nil => exact ⟨[], rfl⟩
  | cons r rest ih =>
    obtain ⟨hp, hs⟩ := h r (List.mem_cons_self r rest)
    obtain ⟨p, hp2⟩ := normPrice_wf r.price hp
    obtain ⟨n, hs2⟩ := normShares_wf r.numberOfShares hs
    obtain ⟨rest2, hrest⟩ := ih (fun r2 hr2 => h r2 (List.mem_cons_of_mem r hr2))
    rw [filter_large_ipos]
    rw [qualStep, hp2, hs2]
    dsimp only
    by_cases hc : OFFER_AMOUNT_THRESHOLD ≤ p * (n : Rat)
    · rw [if_pos hc, hrest]
      exact ⟨mkQual r p n :: rest2, rfl⟩
    · rw [if_neg hc, hrest]
      exact ⟨rest2, rfl⟩

/-- A non-negative well-parsing `numberOfShares` payload normalises to a
non-negative count. -/
theorem normShares_nonneg (v : PyVal) (hnn : sharesNonNeg v = true)
    (n : Int) (h : normShares v = .ok n) : 0 ≤ n := by
  cases v with
  | none =>
    injection h with h2
    subst h2
    exact le_refl 0
  | num q =>
    simp only [sharesNonNeg, decide_eq_true_eq] at hnn
    injection h with h2
    subst h2
    by_cases h0 : q = 0
    · simp [h0]
    · simp only [h0, if_false]
      have : (0 : Int) ≤ q.num := Rat.num_nonneg.mpr hnn
      exact Int.tdiv_nonneg this (Int.ofNat_nonneg q.den)
  | str s =>
    simp only [normShares] at h
    by_cases he : s.isEmptyStr = true
    · rw [if_pos he] at h
      injection h with h2
      subst h2
      exact le_refl 0
    · rw [if_neg he] at h
      cases hw : s.wholeInt with
      | none => rw [hw] at h; exact absurd h (by simp)
      | some m =>
        rw [hw] at h
        dsimp only at h
        injection h with h2
        subst h2
        simp only [sharesNonNeg, hw, decide_eq_true_eq] at hnn
        exact hnn

/-- A dict emitted by a loop iteration certifies a successful, emitting
`qualStep`. -/
theorem emittedOf_eq_some (r : Raw) (q : Qual) (h : emittedOf r = some q) :
    qualStep r = .ok (some q) := by
  unfold emittedOf at h
  cases hqs : qualStep r with
  | error e => rw [hqs] at h; exact absurd h (by simp)
  | ok o => rw [hqs] at h; dsimp only at h; rw [h]

/-- Claim C1: a record appears in the output of `filter_large_ipos` iff
its normalised price times normalised share count is at least
200,000,000, with the boundary inclusive; a falsy `price` or
`numberOfShares` normalises to 0 (so the offer amount is 0 and the record
is excluded). -/
theorem claim_C1_threshold_iff (ipos : List Raw) (out : List Qual)
    (h : filter_large_ipos ipos = .ok out) (r : Raw) (hr : r ∈ ipos)
    (p : Rat) (s : Int) (hp : normPrice r.price = .ok p)
    (hs : normShares r.numberOfShares = .ok s) :
    (mkQual r p s ∈ out ↔ OFFER_AMOUNT_THRESHOLD ≤ p * (s : Rat))
      ∧ (r.price.isFalsy = true → p = 0)
      ∧ (r.numberOfShares.isFalsy = true → s = 0) := by
  refine ⟨⟨?_, ?_⟩, ?_, ?_⟩
  · intro hmem
    have := filter_ok_amount ipos out h _ hmem
    simpa [mkQual] using this
  · intro hc
    exact filter_ok_mem ipos out h r hr _
      ((qualStep_eq_some_iff r _).mpr ⟨p, s, hp, hs, hc, rfl⟩)
  · intro hf
    have h0 := normPrice_falsy r.price hf
    rw [hp] at h0
    exact Except.ok.inj h0
  · intro hf
    have h0 := normShares_falsy r.numberOfShares hf
    rw [hs] at h0
    exact Except.ok.inj h0

/-- Witness for C1 at the inclusive boundary: price 200 and 1,000,000
shares give offer amount exactly 200,000,000 and the record qualifies. -/
theorem claim_C1_witness :
    mkQual rBoundary 200 1000000 ∈ [mkQual rBoundary 200 1000000]
      ↔ OFFER_AMOUNT_THRESHOLD ≤ (200 : Rat) * ((1000000 : Int) : Rat) :=
  (claim_C1_threshold_iff [rBoundary] [mkQual rBoundary 200 1000000]
    (by norm_num [filter_large_ipos, qualStep, normPrice, normShares, pytrunc,
      mkQual, OFFER_AMOUNT_THRESHOLD, rBoundary])
    rBoundary (List.mem_singleton.mpr rfl) 200 1000000
    (by norm_num [normPrice, rBoundary])
    (by norm_num [normShares, pytrunc, rBoundary])).1

/-- Counterexample to C2 as stated: a record whose `price` is the
negative numeric string `"-5"` makes the filter raise a `ValueError`
(the hyphen split yields an empty piece and `float("")` raises), rather
than degrading to 0. -/
theorem claim_C2_counterexample :
    filter_large_ipos [rNegStr] = .error "could not convert string to float" := by
  simp +decide [filter_large_ipos, qualStep, normPrice, rNegStr, sNeg5,
    PyStr.isEmptyStr, segFloat]

/-- Claim C2 as amended: the filter never raises on records whose
`price` is absent/null, numeric, the empty string, a parseable decimal
string, or a two-piece range with both halves parseable, and whose
`numberOfShares` is absent/null, numeric, the empty string, or an
integer-parseable string; truthy malformed strings (negative strings
such as `"-5"`, non-numeric text, multi-hyphen ranges) raise instead. -/
theorem claim_C2_wellformed_no_raise (ipos : List Raw)
    (h : ∀ r ∈ ipos, priceWellFormed r.price = true ∧ sharesWellFormed r.numberOfShares = true) :
    ∃ out, filter_large_ipos ipos = .ok out :=
  filter_wf_ok ipos h

/-- Witness for the amended C2 on records covering null, zero, range
string, empty string and integer-string shares. -/
theorem claim_C2_witness :
    ∃ out, filter_large_ipos
      [⟨none, none, none, none, .none, .num 0⟩,
       ⟨none, none, none, none, .str s15_17, .str sEmpty⟩,
       ⟨none, none, none, none, .num 200, .str sNeg5⟩] = .ok out :=
  claim_C2_wellformed_no_raise _ (by decide)

/-- Counterexample to C3 as stated: a successful fetch (status 200)
whose single record has a non-numeric string price makes `main` raise an
uncaught `ValueError` instead of completing normally. -/
theorem claim_C3_counterexample :
    IpoMonitor.main (.returns ⟨200, some [rBadPrice]⟩) true "2026-01-01" (fun _ => "")
      = .error "could not convert string to float" := by
  simp +decide [IpoMonitor.main, get_todays_ipos, filter_large_ipos, qualStep,
    normPrice, rBadPrice, sAbc, PyStr.isEmptyStr, segFloat]

/-- Claim C3 as amended: `main` absorbs non-200 fetch statuses and email
transmission failures, completing normally whenever the fetch produced a
parsed HTTP response whose records all normalise; but an exception
raised by the HTTP transport or JSON decoding, or a `ValueError` on a
malformed record, propagates uncaught to process exit. -/
theorem claim_C3_completes_on_wellformed (resp : IpoResponse) (smtpOk : Bool)
    (today : String) (render : Qual → String)
    (h : ∀ r ∈ (get_todays_ipos resp).1,
      priceWellFormed r.price = true ∧ sharesWellFormed r.numberOfShares = true) :
    ∃ logs, IpoMonitor.main (.returns resp) smtpOk today render = .ok logs := by
  obtain ⟨out, hout⟩ := filter_wf_ok _ h
  refine ⟨(get_todays_ipos resp).2 ++ (send_email out today render smtpOk).2.2, ?_⟩
  simp only [IpoMonitor.main]
  rw [hout]

/-- Witness for the amended C3: a 200 response with a boundary record
and a failing SMTP session still completes normally. -/
theorem claim_C3_witness :
    ∃ logs, IpoMonitor.main (.returns ⟨200, some [rBoundary]⟩) false "2026-01-01"
      (fun _ => "") = .ok logs :=
  claim_C3_completes_on_wellformed ⟨200, some [rBoundary]⟩ false "2026-01-01"
    (fun _ => "") (by decide)

/-- Claim C4: when a string `price` splits at the hyphen into exactly
two decimal-parseable pieces `lo` and `hi`, the normalised price is
their arithmetic mean `(lo + hi) / 2`; in particular `"15-17"`
normalises to exactly 16. -/
theorem claim_C4_range_midpoint (s : PyStr) (b : Seg) (htl : s.tail = [b])
    (lo hi : Rat) (hlo : segFloat s.head = .ok lo) (hhi : segFloat b = .ok hi) :
    normPrice (.str s) = .ok ((lo + hi) / 2)
      ∧ normPrice (.str s15_17) = .ok 16 := by
  constructor
  · obtain ⟨hd, tl, w, hok⟩ := s
    dsimp only at htl hlo
    subst htl
    simp [normPrice, PyStr.isEmptyStr, hlo, hhi]
  · norm_num [normPrice, s15_17, PyStr.isEmptyStr, segFloat]

/-- Witness for C4 at the spec's example `"15-17"`: the theorem applied
to that string gives the mean of 15 and 17. -/
theorem claim_C4_witness :
    normPrice (.str s15_17) = .ok (((15 : Rat) + 17) / 2) :=
  (claim_C4_range_midpoint s15_17 (.intSeg 17) rfl 15 17
    (by norm_num [s15_17, segFloat]) (by norm_num [segFloat])).1

/-- Claim C5: a successful filter pass preserves input order with no
re-sorting: the output is exactly the in-order sequence of emissions of
the input records. -/
theorem claim_C5_order_preserved (ipos : List Raw) (out : List Qual)
    (h : filter_large_ipos ipos = .ok out) :
    out = ipos.filterMap emittedOf :=
  filter_ok_eq_filterMap ipos out h

/-- Witness for C5 on the spec's multi-record scenario: offer amounts
50M, 250M and 300M produce exactly the latter two dicts in their
original relative order. -/
theorem claim_C5_witness :
    [mkQual r250 250 1000000, mkQual r300 300 1000000]
      = [r50, r250, r300].filterMap emittedOf :=
  claim_C5_order_preserved [r50, r250, r300]
    [mkQual r250 250 1000000, mkQual r300 300 1000000]
    (by norm_num [filter_large_ipos, qualStep, normPrice, normShares, pytrunc,
      mkQual, OFFER_AMOUNT_THRESHOLD, r50, r250, r300])

/-- Counterexample to C6 as stated: a record with price -10 and
-20,000,000 shares has offer amount 200,000,000, qualifies, and is
emitted with a negative `shares` field. -/
theorem claim_C6_counterexample :
    filter_large_ipos [rNegShares] = .ok [mkQual rNegShares (-10) (-20000000)]
      ∧ (mkQual rNegShares (-10) (-20000000)).shares < 0 := by
  constructor
  · norm_num [filter_large_ipos, qualStep, normPrice, normShares, pytrunc,
      mkQual, OFFER_AMOUNT_THRESHOLD, rNegShares]
  · norm_num [mkQual, rNegShares]

/-- Claim C6 as amended: every output `shares` field is a normalised
integer count (truncation of the raw value), and it is non-negative
whenever every raw `numberOfShares` payload that parses is non-negative;
a negative raw `numberOfShares` combined with a negative price can place
a record with negative `shares` in the output. -/
theorem claim_C6_shares_nonneg (ipos : List Raw) (out : List Qual)
    (h : filter_large_ipos ipos = .ok out)
    (hnn : ∀ r ∈ ipos, sharesNonNeg r.numberOfShares = true) :
    ∀ q ∈ out, 0 ≤ q.shares := by
  intro q hq
  rw [filter_ok_eq_filterMap ipos out h] at hq
  obtain ⟨r, hr, hem⟩ := List.mem_filterMap.mp hq
  obtain ⟨p, s, _, hs, _, rfl⟩ :=
    (qualStep_eq_some_iff r q).mp (emittedOf_eq_some r q hem)
  exact normShares_nonneg r.numberOfShares (hnn r hr) s hs

/-- Witness for the amended C6: in the boundary record's output the
share count is non-negative. -/
theorem claim_C6_witness : 0 ≤ (mkQual rBoundary 200 1000000).shares :=
  claim_C6_shares_nonneg [rBoundary] [mkQual rBoundary 200 1000000]
    (by norm_num [filter_large_ipos, qualStep, normPrice, normShares, pytrunc,
      mkQual, OFFER_AMOUNT_THRESHOLD, rBoundary])
    (by decide) (mkQual rBoundary 200 1000000) (List.mem_singleton.mpr rfl)

/-- Claim C7: on a status-200 response the fetcher returns the array
under `ipoCalendar` (a missing key giving the empty array, with no log);
on any other status it logs the status and returns the empty list, so a
failed fetch is indistinguishable from an empty calendar. -/
theorem claim_C7_fetch (resp : IpoResponse) :
    (resp.status = 200 → get_todays_ipos resp = (resp.ipoCalendar.getD [], []))
      ∧ (resp.status ≠ 200 →
          get_todays_ipos resp = ([], ["Error fetching IPO data: " ++ toString resp.status]))
      ∧ (resp.status = 200 → resp.ipoCalendar = none → get_todays_ipos resp = ([], [])) := by
  refine ⟨fun h => ?_, fun h => ?_, fun h hkey => ?_⟩
  · simp [get_todays_ipos, h]
  · simp [get_todays_ipos, h]
  · simp [get_todays_ipos, h, hkey]

/-- Witness for C7: a 200 response with one record returns it; a 404
returns the empty list with the status logged; a 200 response missing
the key returns the empty list. -/
theorem claim_C7_witness :
    get_todays_ipos ⟨200, some [r50]⟩ = ([r50], [])
      ∧ get_todays_ipos ⟨404, some [r50]⟩ = ([], ["Error fetching IPO data: " ++ toString 404])
      ∧ get_todays_ipos ⟨200, none⟩ = ([], []) :=
  ⟨(claim_C7_fetch ⟨200, some [r50]⟩).1 rfl,
   (claim_C7_fetch ⟨404, some [r50]⟩).2.1 (by decide),
   (claim_C7_fetch ⟨200, none⟩).2.2 rfl rfl⟩

/-- Claim C8: the notifier's subject is a function of the qualifying
sequence and the date: for the empty sequence it is the fixed "No Large
IPOs" subject with the fixed informational body, and otherwise the
alert subject carrying the length of the sequence as the count. -/
theorem claim_C8_subject (qs : List Qual) (today : String) (render : Qual → String) :
    (qs = [] → send_email_message qs today render =
        ("IPO Monitor - No Large IPOs Today (" ++ today ++ ")",
         "No IPOs with offer amount above USD 200 million are scheduled for today."))
      ∧ (qs ≠ [] → (send_email_message qs today render).1 =
          "IPO Alert - " ++ toString qs.length ++ " Large IPO(s) Today (" ++ today ++ ")") := by
  constructor
  · intro h
    subst h
    rfl
  · intro h
    rw [send_email_message, if_neg (by simpa [List.isEmpty_iff] using h)]

/-- Witness for C8: the empty sequence gives the "no IPOs" subject and
body; a one-element sequence gives the alert subject with count 1. -/
theorem claim_C8_witness :
    send_email_message [] "2026-01-01" (fun _ => "") =
        ("IPO Monitor - No Large IPOs Today (2026-01-01)",
         "No IPOs with offer amount above USD 200 million are scheduled for today.")
      ∧ (send_email_message [mkQual rBoundary 200 1000000] "2026-01-01" (fun _ => "")).1 =
          "IPO Alert - " ++ toString (1 : Nat) ++ " Large IPO(s) Today (2026-01-01)" :=
  ⟨(claim_C8_subject [] "2026-01-01" (fun _ => "")).1 rfl,
   (claim_C8_subject [mkQual rBoundary 200 1000000] "2026-01-01" (fun _ => "")).2
     (by simp)⟩

/-- Claim C9: the filter is a homomorphism over list concatenation on
successful runs, and the empty input yields the empty output. -/
theorem claim_C9_append (xs ys : List Raw) (as bs : List Qual)
    (hx : filter_large_ipos xs = .ok as) (hy : filter_large_ipos ys = .ok bs) :
    filter_large_ipos (xs ++ ys) = .ok (as ++ bs)
      ∧ filter_large_ipos [] = .ok ([] : List Qual) :=
  ⟨filter_large_ipos_append xs ys as bs hx hy, rfl⟩

/-- Witness for C9: concatenating a below-threshold record with an
above-threshold record filters to the concatenation of the two outputs. -/
theorem claim_C9_witness :
    filter_large_ipos ([r50] ++ [r250]) = .ok ([] ++ [mkQual r250 250 1000000])
      ∧ filter_large_ipos [] = .ok ([] : List Qual) :=
  claim_C9_append [r50] [r250] [] [mkQual r250 250 1000000]
    (by norm_num [filter_large_ipos, qualStep, normPrice, normShares, pytrunc,
      mkQual, OFFER_AMOUNT_THRESHOLD, r50])
    (by norm_num [filter_large_ipos, qualStep, normPrice, normShares, pytrunc,
      mkQual, OFFER_AMOUNT_THRESHOLD, r250])

/-- Claim C10: every dict in the filter's output takes its display
fields unchanged from some input record: output `symbol`, `company`,
`date` and `exchange` are the raw record's `symbol`, `name`, `date` and
`exchange`, each possibly absent. -/
theorem claim_C10_display_fields (ipos : List Raw) (out : List Qual)
    (h : filter_large_ipos ipos = .ok out) (q : Qual) (hq : q ∈ out) :
    ∃ r ∈ ipos, q.symbol = r.symbol ∧ q.company = r.name
      ∧ q.date = r.date ∧ q.exchange = r.exchange := by
  rw [filter_ok_eq_filterMap ipos out h] at hq
  obtain ⟨r, hr, hem⟩ := List.mem_filterMap.mp hq
  obtain ⟨p, s, _, _, _, rfl⟩ :=
    (qualStep_eq_some_iff r q).mp (emittedOf_eq_some r q hem)
  exact ⟨r, hr, rfl, rfl, rfl, rfl⟩

/-- Witness for C10 on a record with all display fields present. -/
theorem claim_C10_witness :
    ∃ r ∈ [rNamed], (mkQual rNamed 200 1000000).symbol = r.symbol
      ∧ (mkQual rNamed 200 1000000).company = r.name
      ∧ (mkQual rNamed 200 1000000).date = r.date
      ∧ (mkQual rNamed 200 1000000).exchange = r.exchange :=
  claim_C10_display_fields [rNamed] [mkQual rNamed 200 1000000]
    (by norm_num [filter_large_ipos, qualStep, normPrice, normShares, pytrunc,
      mkQual, OFFER_AMOUNT_THRESHOLD, rNamed])
    (mkQual rNamed 200 1000000) (List.mem_singleton.mpr rfl)
